import Mathlib

/-!
# Verification of the Beacon AI backend (`server.js`)

A shallow embedding, in Lean 4, of the pure core and the request handlers of
the Beacon AI Express backend (the ESM `server.js` variant, which is a superset
of the CommonJS variant: `normalizeUrl`, `hashString`, `isValidEmailFormat`,
`emailHasMx`, `saveLead` and the `/api/analyze` handler are the same in both,
the ESM variant additionally has `calcDiscountedPrice`,
`recommendPackageFromReport`, `logEvent`, `sendBeaconReportEmail` and `GET /r`).

JavaScript strings are modelled as Lean `String`/`List Char`; the JS string
primitives used by the source (`trim`, `toLowerCase`, `split`, `startsWith`,
`slice`, the regular expressions `/^https?:\/\//i` and the email-format
regex) are re-implemented below with JS semantics, restricted to ASCII where
noted.  JS numbers are modelled as `ℚ` (all numbers handled by the modelled
code paths are exact small decimals, so rational arithmetic agrees with IEEE
double arithmetic on them); `NaN`/absent is an explicit `Option`/`ScoreVal`
case.  Asynchronous storage and network calls are modelled as oracles in an
environment record, and the handlers return, next to the response, the ordered
list of attempted side effects.
-/

/-! ## JS string primitives over `List Char` -/

/-- JS whitespace test for the characters relevant here (the ASCII whitespace
class recognised by `String.prototype.trim`; Unicode spaces are outside the
modelled fragment). -/
def isWsChar (c : Char) : Bool :=
  c.toNat = 32 || (9 ≤ c.toNat && c.toNat ≤ 13)

/-- `String.prototype.trim` on a character list: drop whitespace from both
ends. -/
def jsTrim (l : List Char) : List Char :=
  ((l.dropWhile isWsChar).reverse.dropWhile isWsChar).reverse

/-- ASCII lowercasing of one character, as `String.prototype.toLowerCase`
acts on ASCII letters (the only letters the modelled fragment contains). -/
def lcChar (c : Char) : Char :=
  if 65 ≤ c.toNat && c.toNat ≤ 90 then Char.ofNat (c.toNat + 32) else c

/-- `String.prototype.toLowerCase` on a character list (ASCII fragment). -/
def jsLower (l : List Char) : List Char := l.map lcChar

/-- String wrapper for `jsTrim`. -/
def jsTrimS (s : String) : String := String.mk (jsTrim s.data)

/-- String wrapper for `jsLower`. -/
def jsLowerS (s : String) : String := String.mk (jsLower s.data)

/-- JS `a || b` for strings: `b` when `a` is falsy (the empty string, which
also stands for `undefined` fields in the modelled records), else `a`. -/
def jsOrS (a b : String) : String := if a = "" then b else a

/-- JS `v || null` for an optional string: `none` when `v` is absent or empty. -/
def jsOrNull (v : Option String) : Option String :=
  match v with
  | none => none
  | some s => if s = "" then none else some s

/-- Does `l` start with the literal character list `p`? (JS
`String.prototype.startsWith`.) -/
def startsWithL (p l : List Char) : Bool := l.take p.length == p

/-- Case-insensitive literal prefix match, the building block of the source's
regex test `/^https?:\/\//i` (`p` is given in lowercase). -/
def matchesCI : List Char → List Char → Bool
  | [], _ => true
  | _ :: _, [] => false
  | p :: ps, c :: cs => (lcChar c == p) && matchesCI ps cs

/-- The source's test `/^https?:\/\//i`: a case-insensitive `http://` or
`https://` prefix. -/
def hasHttpScheme (l : List Char) : Bool :=
  matchesCI "http://".data l || matchesCI "https://".data l

/-- `String.prototype.split(sep)` (single-character separator, JS
semantics: `"".split` gives `[""]`, separators at the ends give empty
fields). -/
def jsSplit (sep : Char) : List Char → List (List Char)
  | [] => [[]]
  | c :: rest =>
    match jsSplit sep rest with
    | [] => if c = sep then [[], []] else [[c]]
    | h :: t => if c = sep then [] :: h :: t else (c :: h) :: t

/-! ## The WHATWG URL hostname, as used by `new URL(url).hostname`

The source parses `url` (which always carries an `http://`/`https://` prefix
when `new URL` is reached) and reads `u.hostname`.  The model below covers the
ASCII fragment of the WHATWG parser that the normalizer relies on: the
authority is the span after the scheme up to the first `/`, `?`, `#` or `\`;
userinfo (up to the last `@`) is discarded; a `:`-separated port must be all
digits (the model does not check the 65535 bound); the remaining host must be
nonempty printable ASCII without the forbidden host code points
`# % / : < > ? @ [ \ ] ^ |` (non-ASCII hosts, percent-escapes and IDNA are
outside the modelled fragment and are treated as parse failures). -/

/-- Characters that terminate the authority of a special-scheme URL. -/
def hostTermChar (c : Char) : Bool :=
  c.toNat = 47 || c.toNat = 63 || c.toNat = 35 || c.toNat = 92

/-- A character allowed in the (ASCII fragment of a) WHATWG hostname. -/
def validHostChar (c : Char) : Bool :=
  33 ≤ c.toNat && c.toNat ≤ 126 &&
  !(c.toNat = 35 || c.toNat = 37 || c.toNat = 47 || c.toNat = 58 ||
    c.toNat = 60 || c.toNat = 62 || c.toNat = 63 || c.toNat = 64 ||
    c.toNat = 91 || c.toNat = 92 || c.toNat = 93 || c.toNat = 94 ||
    c.toNat = 124)

/-- The span after the last `@` (WHATWG: userinfo precedes the last `@`). -/
def afterLastAt (l : List Char) : List Char :=
  (l.reverse.takeWhile (fun c => c.toNat != 64)).reverse

/-- Split off a `:`-separated port; `none` when the port is not all digits. -/
def splitPort (l : List Char) : Option (List Char) :=
  let h := l.takeWhile (fun c => c.toNat != 58)
  match l.drop h.length with
  | [] => some h
  | _ :: p => if p.all Char.isDigit then some h else none

/-- Scheme length of a string that passed `hasHttpScheme`. -/
def schemeLen (l : List Char) : Nat :=
  if matchesCI "https://".data l then 8 else 7

/-- `new URL(url).hostname` for an `http(s)`-scheme `url` (ASCII fragment,
see above); `none` models a thrown `TypeError`. -/
def jsUrlHost (l : List Char) : Option (List Char) :=
  let rest := l.drop (schemeLen l)
  let auth := rest.takeWhile (fun c => !hostTermChar c)
  let hostPort := afterLastAt auth
  match splitPort hostPort with
  | none => none
  | some host =>
    if host ≠ [] ∧ host.all validHostChar then some host else none

/-- `normalizeUrl` from `server.js` on a character list: trim; reject blank;
prepend `https://` unless an `http(s)://` prefix is present (case-insensitive
regex); parse as a URL (`none` on parse failure); lowercase the hostname and
strip one leading `www.`. -/
def normalizeUrlL (input : List Char) : Option (List Char) :=
  let url := jsTrim input
  if url = [] then none
  else
    let url2 := if hasHttpScheme url then url else "https://".data ++ url
    match jsUrlHost url2 with
    | none => none
    | some host =>
      let h := jsLower host
      some (if startsWithL "www.".data h then h.drop 4 else h)

/-- `normalizeUrl` from `server.js` (both variants are identical): canonical
domain of a raw user-supplied URL, `none` modelling the source's `null`. -/
def normalizeUrl (input : String) : Option String :=
  (normalizeUrlL input.data).map String.mk

/-! ## `hashString`: SHA-256 hex digest

`hashString` in the source is `crypto.createHash("sha256").update(s).digest("hex")`:
the SHA-256 digest of the UTF-8 bytes of `s`, in lowercase hex.  The algorithm
is implemented below over `Nat` with explicit `% 2^32` reductions. -/

/-- UTF-8 encoding of one character as a byte list. -/
def utf8Bytes (c : Char) : List Nat :=
  let n := c.toNat
  if n < 128 then [n]
  else if n < 2048 then [192 ||| (n >>> 6), 128 ||| (n % 64)]
  else if n < 65536 then
    [224 ||| (n >>> 12), 128 ||| ((n >>> 6) % 64), 128 ||| (n % 64)]
  else
    [240 ||| (n >>> 18), 128 ||| ((n >>> 12) % 64), 128 ||| ((n >>> 6) % 64),
     128 ||| (n % 64)]

/-- 32-bit right rotation. -/
def rotr32 (x n : Nat) : Nat :=
  ((x >>> n) ||| (x <<< (32 - n))) % 4294967296

/-- 32-bit addition. -/
def add32 (a b : Nat) : Nat := (a + b) % 4294967296

/-- The SHA-256 round constants. -/
def sha256K : List Nat :=
  [1116352408, 1899447441, 3049323471, 3921009573, 961987163, 1508970993,
   2453635748, 2870763221, 3624381080, 310598401, 607225278, 1426881987,
   1925078388, 2162078206, 2614888103, 3248222580, 3835390401, 4022224774,
   264347078, 604807628, 770255983, 1249150122, 1555081692, 1996064986,
   2554220882, 2821834349, 2952996808, 3210313671, 3336571891, 3584528711,
   113926993, 338241895, 666307205, 773529912, 1294757372, 1396182291,
   1695183700, 1986661051, 2177026350, 2456956037, 2730485921, 2820302411,
   3259730800, 3345764771, 3516065817, 3600352804, 4094571909, 275423344,
   430227734, 506948616, 659060556, 883997877, 958139571, 1322822218,
   1537002063, 1747873779, 1955562222, 2024104815, 2227730452, 2361852424,
   2428436474, 2756734187, 3204031479, 3329325298]

/-- The SHA-256 initial hash value. -/
def sha256H0 : List Nat :=
  [1779033703, 3144134277, 1013904242, 2773480762,
   1359893119, 2600822924, 528734635, 1541459225]

/-- Big-endian 8-byte encoding of a (64-bit) length. -/
def be64 (n : Nat) : List Nat :=
  [(n >>> 56) % 256, (n >>> 48) % 256, (n >>> 40) % 256, (n >>> 32) % 256,
   (n >>> 24) % 256, (n >>> 16) % 256, (n >>> 8) % 256, n % 256]

/-- SHA-256 message padding: `0x80`, zeros to 56 mod 64, big-endian bit
length. -/
def sha256Pad (msg : List Nat) : List Nat :=
  let L := msg.length
  let z := (119 - (L % 64)) % 64
  msg ++ [128] ++ List.replicate z 0 ++ be64 (L * 8)

/-- Split a byte list into 64-byte blocks. -/
def toBlocks (l : List Nat) : List (List Nat) :=
  if l = [] then [] else l.take 64 :: toBlocks (l.drop 64)
termination_by l.length
decreasing_by
  cases l with
  | nil => simp_all
  | cons a t => simp [List.length_drop]; omega

/-- Big-endian 32-bit words of a 64-byte block. -/
def blockWords : List Nat → List Nat
  | b0 :: b1 :: b2 :: b3 :: rest =>
    (b0 <<< 24 ||| b1 <<< 16 ||| b2 <<< 8 ||| b3) :: blockWords rest
  | _ => []

/-- Extend 16 message words to the 64-entry SHA-256 message schedule. -/
def extendW (w : Array Nat) : Array Nat :=
  (List.range 48).foldl
    (fun w j =>
      let i := j + 16
      let x15 := w.getD (i - 15) 0
      let x2 := w.getD (i - 2) 0
      let s0 := (rotr32 x15 7) ^^^ (rotr32 x15 18) ^^^ (x15 >>> 3)
      let s1 := (rotr32 x2 17) ^^^ (rotr32 x2 19) ^^^ (x2 >>> 10)
      w.push ((w.getD (i - 16) 0 + s0 + w.getD (i - 7) 0 + s1) % 4294967296))
    w

/-- One SHA-256 compression round. -/
def sha256Round (st : List Nat) (kw : Nat × Nat) : List Nat :=
  match st with
  | [a, b, c, d, e, f, g, h] =>
    let s1 := (rotr32 e 6) ^^^ (rotr32 e 11) ^^^ (rotr32 e 25)
    let ch := (e &&& f) ^^^ ((4294967295 - e) &&& g)
    let t1 := (h + s1 + ch + kw.1 + kw.2) % 4294967296
    let s0 := (rotr32 a 2) ^^^ (rotr32 a 13) ^^^ (rotr32 a 22)
    let mj := (a &&& b) ^^^ (a &&& c) ^^^ (b &&& c)
    let t2 := (s0 + mj) % 4294967296
    [add32 t1 t2, a, b, c, add32 d t1, e, f, g]
  | st => st

/-- Compress one 64-byte block into the running hash state. -/
def sha256Block (hs : List Nat) (block : List Nat) : List Nat :=
  let w := extendW (Array.mk (blockWords block))
  let st := (sha256K.zip w.toList).foldl sha256Round hs
  (hs.zip st).map (fun p => add32 p.1 p.2)

/-- Lowercase hex digit. -/
def hexDigit (n : Nat) : Char :=
  if n < 10 then Char.ofNat (48 + n) else Char.ofNat (87 + n)

/-- Lowercase 8-hex-digit rendering of a 32-bit word. -/
def toHex32 (n : Nat) : List Char :=
  [hexDigit ((n >>> 28) % 16), hexDigit ((n >>> 24) % 16),
   hexDigit ((n >>> 20) % 16), hexDigit ((n >>> 16) % 16),
   hexDigit ((n >>> 12) % 16), hexDigit ((n >>> 8) % 16),
   hexDigit ((n >>> 4) % 16), hexDigit (n % 16)]

/-- SHA-256 of a byte list, as a lowercase hex string. -/
def sha256Hex (msg : List Nat) : String :=
  let hs := (toBlocks (sha256Pad msg)).foldl sha256Block sha256H0
  String.mk (hs.map toHex32).flatten

/-- `hashString` from `server.js`: SHA-256 hex digest of the UTF-8 bytes. -/
def hashString (s : String) : String :=
  sha256Hex ((s.data.map utf8Bytes).flatten)

/-! ## Email validation -/

/-- Does the character list lie in the positions strictly between the first
and the last element?  `(l.drop 1).dropLast.contains dot` decides whether the
regex tail `[^\s@]+\.[^\s@]+` can place its `.`: some `.` with at least one
character on each side. -/
def hasInnerDot (l : List Char) : Bool := ((l.drop 1).dropLast).contains '.'

/-- `isValidEmailFormat` from `server.js`: trim, then match
`/^[^\s@]+@[^\s@]+\.[^\s@]+$/`.  The regex is decided structurally: the
local part is everything before the first `@` (nonempty, no whitespace), the
rest must be free of whitespace and `@` and must contain a `.` with a
nonempty span on each side. -/
def isValidEmailFormat (value : String) : Bool :=
  let l := jsTrim value.data
  match jsSplit '@' l with
  | loc :: rest1 :: restOther =>
    restOther = [] &&
    loc ≠ [] && loc.all (fun c => !isWsChar c) &&
    rest1.all (fun c => !isWsChar c) && hasInnerDot rest1
  | _ => false

/-- `emailHasMx` from `server.js`: trim and lowercase, take the part after the
first `@` (`email.split("@")[1]`), reject a missing or empty domain, resolve
its MX records through the injected resolver (the `dns.promises.resolveMx`
oracle; `Except.error` models a rejected promise), and require a nonempty
record list.  Resolution failure is caught and mapped to `false`. -/
def emailHasMx (resolveMx : String → Except Unit (List Nat)) (value : String) :
    Bool :=
  let email := jsLower (jsTrim value.data)
  match (jsSplit '@' email)[1]? with
  | none => false
  | some dom =>
    if dom = [] then false
    else
      match resolveMx (String.mk dom) with
      | .error _ => false
      | .ok mx => mx ≠ []

/-! ## Scores, JS numbers, and the Recommendation Engine -/

/-- The JS value found in a report's `score` field: a (finite) number, `null`,
or absent/`undefined` (which also stands for the other non-finite results of
`Number(...)`, i.e. `NaN` and the infinities). -/
inductive ScoreVal where
  | num (q : ℚ)
  | null
  | undef
deriving DecidableEq, Repr

/-- `Number(report?.score)` followed by the source's `Number.isFinite` guard:
`some q` for a finite number, `none` for a non-finite result.  `Number(null)`
is `0` in JS. -/
def jsNumberScore : ScoreVal → Option ℚ
  | .num q => some q
  | .null => some 0
  | .undef => none

/-- `score ?? null` as used by `saveLead`: both `undefined` and `null`
collapse to SQL `NULL`. -/
def jsNullishScore : ScoreVal → Option ℚ
  | .num q => some q
  | .null => none
  | .undef => none

/-- JS `Math.round` on the modelled (rational) numbers: round half toward
positive infinity. -/
def jsMathRound (x : ℚ) : ℤ := ⌊x + 1 / 2⌋

/-- `calcDiscountedPrice` from `server.js`:
`Math.round(p * (1 - d / 100) * 100) / 100`, with `null` (here `none`) when
either input is not a finite number. -/
def calcDiscountedPrice (price discountPercent : Option ℚ) : Option ℚ :=
  match price, discountPercent with
  | some p, some d => some ((jsMathRound (p * (1 - d / 100) * 100) : ℚ) / 100)
  | _, _ => none

/-- A stored report row (the `beacon_ai` table): keyed by `url_hash`, the
fingerprint of the normalized domain. -/
structure Report where
  url_hash : String
  domain : String
  score : ScoreVal
  summary : Option String
deriving DecidableEq, Repr

/-- The recommendation object returned by `recommendPackageFromReport`. -/
structure Recommendation where
  tier : String
  packageName : String
  price : ℚ
  discountPercent : ℚ
  discountedPrice : Option ℚ
  code : String
  urgencyLine : String
  bullets : List String
deriving DecidableEq, Repr

/-- `recommendPackageFromReport` from `server.js`: the locked 15% /
`BEACON15` / 48-hour offer, a tier chosen from the score (default
`"Business"`, used when the score is not a finite number), the fixed catalog
entry for the tier, and the discounted price. -/
def recommendPackageFromReport (report : Report) : Recommendation :=
  let score := jsNumberScore report.score
  let discountPercent : ℚ := 15
  let code := "BEACON15"
  let urgencyLine := "Book within 48 hours to claim the discount."
  let tier :=
    match score with
    | none => "Business"
    | some s => if s ≥ 85 then "Starter" else if s ≥ 60 then "Business" else "Premium"
  let selected :=
    if tier = "Starter" then
      ("Starter Website", (299 : ℚ),
       ["Clean, modern single page layout",
        "Clear call to action and lead capture",
        "Mobile friendly layout and basic performance cleanup",
        "Perfect for simple service businesses"])
    else if tier = "Business" then
      ("Business Website", (499 : ℚ),
       ["Multi section or small multi page structure",
        "Conversion focused layout with strong calls to action",
        "Basic SEO setup and on page improvements",
        "Ideal for most local businesses"])
    else
      ("Premium Website", (899 : ℚ),
       ["Full custom build with multiple pages and strategy",
        "Stronger SEO foundation and content structure",
        "Performance and accessibility improvements",
        "Best for competitive niches and scaling"])
  let discountedPrice := calcDiscountedPrice (some selected.2.1) (some discountPercent)
  ⟨tier, selected.1, selected.2.1, discountPercent, discountedPrice, code,
   urgencyLine, selected.2.2⟩

/-! ## Persistence rows, effects, and the environment -/

/-- A row of the `beacon_ai_leads` table as built by `saveLead`. -/
structure LeadRow where
  email : String
  business_name : String
  contact_name : Option String
  domain : String
  url_hash : String
  score : Option ℚ
  summary : Option String
  recommended_tier : Option String
  recommended_package_name : Option String
  recommended_price : Option ℚ
  recommended_discount_percent : Option ℚ
  recommended_discounted_price : Option ℚ
  discount_code : Option String
  discount_deadline_hours : ℚ
deriving DecidableEq, Repr

/-- The `meta` bag stored with an event (`user-agent` / `referer`). -/
structure EventMeta where
  user_agent : Option String
  referer : Option String
deriving DecidableEq, Repr

/-- A row of the `beacon_ai_events` table as built by `logEvent`. -/
structure EventRow where
  event_type : String
  email : Option String
  url_hash : Option String
  domain : Option String
  recommended_tier : Option String
  meta : Option EventMeta
deriving DecidableEq, Repr

/-- One attempted side effect of a handler, in order.  The `ok` flag records
whether the underlying storage/send call succeeded; a `false` flag means the
failure was caught and only logged (no row persisted / no mail delivered). -/
inductive Effect where
  | reportWrite (row : Report) (ok : Bool)
  | leadWrite (row : LeadRow) (ok : Bool)
  | eventWrite (row : EventRow) (ok : Bool)
  | emailSend (toAddr : String) (subject : String) (ok : Bool)
deriving DecidableEq, Repr

/-- The asynchronous collaborators of the handlers, as oracles: the DNS MX
resolver, the Supabase reads/writes (`Except.error`/`some msg` model a
returned `error`), and the Resend configuration and outcome. -/
structure Env where
  resolveMx : String → Except Unit (List Nat)
  cacheLookup : String → Except String (Option Report)
  reportInsert : Report → Option String
  leadInsert : LeadRow → Option String
  eventInsert : EventRow → Option String
  resendConfigured : Bool
  emailSendOk : Bool

/-- `saveLead` from `server.js`: build the lead row (business name defaulting
to `"Unknown Business"`, blank contact name becoming `null`, `?? null` on the
nullable fields, the recommendation snapshot, and the fixed 48-hour deadline)
and insert it.  Both a returned error and a thrown exception are caught and
logged, so the function always returns; the attempt is recorded as a
`leadWrite` effect. -/
def saveLead (env : Env) (email businessName name domain urlHash : String)
    (score : ScoreVal) (summary : Option String)
    (recommendation : Recommendation) : Effect :=
  let row : LeadRow :=
    ⟨email,
     jsOrS (jsTrimS businessName) "Unknown Business",
     jsOrNull (some (jsTrimS name)),
     domain,
     urlHash,
     jsNullishScore score,
     summary,
     some recommendation.tier,
     some recommendation.packageName,
     some recommendation.price,
     some recommendation.discountPercent,
     recommendation.discountedPrice,
     some recommendation.code,
     48⟩
  .leadWrite row (env.leadInsert row).isNone

/-- `logEvent` from `server.js`: insert one event row (`|| null` on the
optional fields); a returned error or thrown exception is caught and logged.
The attempt is recorded as an `eventWrite` effect. -/
def logEvent (env : Env) (eventType : String)
    (email urlHash domain tier : Option String) (meta : Option EventMeta) :
    Effect :=
  let row : EventRow :=
    ⟨eventType, jsOrNull email, jsOrNull urlHash, jsOrNull domain,
     jsOrNull tier, meta⟩
  .eventWrite row (env.eventInsert row).isNone

/-- `sendBeaconReportEmail` from `server.js`, reduced to its effect: skip when
`to` is empty or Resend/`EMAIL_FROM` is unconfigured; otherwise attempt the
send, catching (and only logging) failures. -/
def sendBeaconReportEmail (env : Env) (toAddr subject : String) : List Effect :=
  if toAddr = "" then []
  else if !env.resendConfigured then []
  else [.emailSend toAddr subject env.emailSendOk]

/-! ## The HTTP handlers -/

/-- `safeString` from `server.js`: `String(v || "").trim()` for a possibly
absent query parameter. -/
def safeString (v : Option String) : String := jsTrimS (v.getD "")

/-- The response of `GET /r`: a plain-text client error or a redirect. -/
inductive RResponse where
  | badText (status : Nat) (body : String)
  | redirect (status : Nat) (location : String)
deriving DecidableEq, Repr

/-- The query/header inputs of `GET /r`. -/
structure RReq where
  toParam : Option String
  e : Option String
  h : Option String
  d : Option String
  t : Option String
  userAgent : Option String
  referer : Option String

/-- The `GET /r` handler from `server.js`: reject (400 "Bad redirect") unless
`to` is present and passes `/^https?:\/\//i`; otherwise log one `click`-type
event (email deliberately `null`) and issue a 302 redirect to `to`.
`logEvent` catches its own failures, so the outer try/catch's 500 branch is
unreachable in the model. -/
def rRedirect (env : Env) (req : RReq) : RResponse × List Effect :=
  let toDest := safeString req.toParam
  let eventType := jsOrS (safeString req.e) "click"
  let urlHash := safeString req.h
  let domain := safeString req.d
  let tier := safeString req.t
  if toDest = "" ∨ hasHttpScheme toDest.data = false then
    (.badText 400 "Bad redirect", [])
  else
    let ev := logEvent env eventType none
      (jsOrNull (some urlHash)) (jsOrNull (some domain)) (jsOrNull (some tier))
      (some ⟨jsOrNull req.userAgent, jsOrNull req.referer⟩)
    (.redirect 302 toDest, [ev])

/-- The JSON response of `POST /api/analyze`. -/
structure AnalyzeResponse where
  status : Nat
  ok : Bool
  cached : Option Bool
  report : Option Report
  error : Option String
deriving DecidableEq, Repr

/-- The body of a `POST /api/analyze` request; `""` stands for an absent
string field and `refresh = some true` for the literal `refresh: true`
(the handler tests `refresh === true`). -/
structure AnalyzeBody where
  name : String
  email : String
  website : String
  businessName : String
  business_name : String
  refresh : Option Bool

/-- The summary text of the stubbed Report Source. -/
def stubSummary : String :=
  "Solid foundation, but performance, SEO, and conversion clarity can be improved."

/-- The report built on a cache miss ("Fake analysis for now"). -/
def stubReport (urlHash domain : String) : Report :=
  ⟨urlHash, domain, .num 65, some stubSummary⟩

/-- The `POST /api/analyze` handler from `server.js`: required-field check,
email format check, MX reachability check, URL normalization — each failing
with a 400 before any write — then fingerprint, cache lookup (500 on lookup
error), and either the cache-hit path (lead write, optional re-send when
`refresh === true`, 200 with `cached: true`) or the miss path (report insert
with 500 on failure, lead write, report email, 200 with `cached: false`). -/
def apiAnalyze (env : Env) (body : AnalyzeBody) : AnalyzeResponse × List Effect :=
  let finalBusinessName := jsTrimS (jsOrS body.businessName (jsOrS body.business_name ""))
  if body.email = "" ∨ body.website = "" then
    (⟨400, false, none, none, some "Website and email are required."⟩, [])
  else
    let cleanEmail := jsLowerS (jsTrimS body.email)
    if isValidEmailFormat cleanEmail = false then
      (⟨400, false, none, none,
        some "Invalid email. Please enter a real email address."⟩, [])
    else if emailHasMx env.resolveMx cleanEmail = false then
      (⟨400, false, none, none,
        some "That email domain cannot receive email. Please use a real email."⟩, [])
    else
      match normalizeUrl body.website with
      | none => (⟨400, false, none, none, some "Invalid website URL."⟩, [])
      | some normalized =>
        let urlHash := hashString normalized
        match env.cacheLookup urlHash with
        | .error msg => (⟨500, false, none, none, some msg⟩, [])
        | .ok (some cachedReport) =>
          let recommendation := recommendPackageFromReport cachedReport
          let leadEff := saveLead env cleanEmail finalBusinessName body.name
            normalized urlHash cachedReport.score cachedReport.summary
            recommendation
          let emailEffs :=
            if body.refresh = some true then
              sendBeaconReportEmail env cleanEmail "Your Beacon AI website report"
            else []
          (⟨200, true, some true, some cachedReport, none⟩, leadEff :: emailEffs)
        | .ok none =>
          let report := stubReport urlHash normalized
          match env.reportInsert report with
          | some msg =>
            (⟨500, false, none, none, some msg⟩, [.reportWrite report false])
          | none =>
            let recommendation := recommendPackageFromReport report
            let leadEff := saveLead env cleanEmail finalBusinessName body.name
              normalized urlHash report.score report.summary recommendation
            let emailEffs :=
              sendBeaconReportEmail env cleanEmail "Your Beacon AI website report"
            (⟨200, true, some false, some report, none⟩,
             .reportWrite report true :: leadEff :: emailEffs)

/-! ## Auxiliary definitions for the theorems -/

/-- A report with the given score and irrelevant other fields, for stating
score-only properties of the Recommendation Engine. -/
def mkR (s : ScoreVal) : Report := ⟨"", "", s, none⟩

/-- Round half-up to two decimal places, as the specification words it. -/
def halfUpRound2 (q : ℚ) : ℚ := ((⌊q * 100 + 1 / 2⌋ : ℤ) : ℚ) / 100

/-- An environment for the losing-concurrent-writer scenario: MX resolves,
the cache lookup finds no row (the loser's stale read), and the Report insert
comes back with the unique-constraint violation raised by the winner's row. -/
def envC1 : Env :=
  ⟨fun _ => .ok [10], fun _ => .ok none,
   fun _ => some "duplicate key value violates unique constraint",
   fun _ => none, fun _ => none, true, true⟩

/-- A well-formed analyze request body. -/
def bodyC1 : AnalyzeBody :=
  ⟨"Pat", "owner@example.com", "Example.com", "Acme", "", none⟩

/-- `env` with a lead insert that always succeeds, other collaborators
unchanged. -/
def envLeadOk (e : Env) : Env :=
  ⟨e.resolveMx, e.cacheLookup, e.reportInsert, fun _ => none, e.eventInsert,
   e.resendConfigured, e.emailSendOk⟩

/-- The textual scheme of a raw-URL variant: absent, `http://`, or
`https://`. -/
def schemeText : Option Bool → String
  | none => ""
  | some false => "http://"
  | some true => "https://"

/-- A raw URL variant: optional scheme, optional `www.` label, host, and a
trailing path/query/fragment part. -/
def rawUrl (scheme : Option Bool) (www : Bool) (host rest : String) : String :=
  schemeText scheme ++ ((if www then "www." else "") ++ (host ++ rest))

/-! ## Theorems -/

/-- C2: the Recommendation Engine assigns tier Starter for scores ≥ 85,
Business for 60 ≤ score < 85, Premium for scores < 60, and Business when the
score is absent or not a finite number; in particular at 85, 84, 60, 59 and
for an absent score. -/
theorem C2_recommend_tier_thresholds :
    (∀ (r : Report) (q : ℚ), r.score = .num q →
      ((85 ≤ q → (recommendPackageFromReport r).tier = "Starter") ∧
       (60 ≤ q → q < 85 → (recommendPackageFromReport r).tier = "Business") ∧
       (q < 60 → (recommendPackageFromReport r).tier = "Premium"))) ∧
    (∀ r : Report, r.score = .undef →
      (recommendPackageFromReport r).tier = "Business") ∧
    (recommendPackageFromReport (mkR (.num 85))).tier = "Starter" ∧
    (recommendPackageFromReport (mkR (.num 84))).tier = "Business" ∧
    (recommendPackageFromReport (mkR (.num 60))).tier = "Business" ∧
    (recommendPackageFromReport (mkR (.num 59))).tier = "Premium" ∧
    (recommendPackageFromReport (mkR .undef)).tier = "Business" := by
  refine ⟨?_, ?_, by decide, by decide, by decide, by decide, by decide⟩
  · intro r q h
    simp only [recommendPackageFromReport, jsNumberScore, h]
    refine ⟨fun h85 => ?_, fun h60 h85 => ?_, fun h60 => ?_⟩
    · rw [if_pos (by linarith)]
    · rw [if_neg (by linarith), if_pos (by linarith)]
    · rw [if_neg (by linarith), if_neg (by linarith)]
  · intro r h
    simp only [recommendPackageFromReport, jsNumberScore, h]

/-- C2 witness: the general thresholds applied at concrete scores. -/
theorem C2_recommend_tier_thresholds_witness :
    ((mkR (.num 85)).score = ScoreVal.num 85 ∧ (85 : ℚ) ≤ 85 ∧
      (recommendPackageFromReport (mkR (.num 85))).tier = "Starter") ∧
    ((mkR (.num 70)).score = ScoreVal.num 70 ∧ (60 : ℚ) ≤ 70 ∧ (70 : ℚ) < 85 ∧
      (recommendPackageFromReport (mkR (.num 70))).tier = "Business") ∧
    ((mkR (.num 59)).score = ScoreVal.num 59 ∧ (59 : ℚ) < 60 ∧
      (recommendPackageFromReport (mkR (.num 59))).tier = "Premium") ∧
    ((mkR .undef).score = ScoreVal.undef ∧
      (recommendPackageFromReport (mkR .undef)).tier = "Business") :=
  ⟨⟨rfl, by norm_num,
      (C2_recommend_tier_thresholds.1 (mkR (.num 85)) 85 rfl).1 (by norm_num)⟩,
   ⟨rfl, by norm_num, by norm_num,
      (C2_recommend_tier_thresholds.1 (mkR (.num 70)) 70 rfl).2.1 (by norm_num)
        (by norm_num)⟩,
   ⟨rfl, by norm_num,
      (C2_recommend_tier_thresholds.1 (mkR (.num 59)) 59 rfl).2.2 (by norm_num)⟩,
   ⟨rfl, C2_recommend_tier_thresholds.2.1 (mkR .undef) rfl⟩⟩

/-- C6: for every report, the discounted price is the tier's base price times
`1 − 15/100`, rounded half-up to two decimals; the discount percent, code and
48-hour urgency line are the same constants for every tier; and at score 70
the discounted price is 424.15 (= 8483/20). -/
theorem C6_discount_math : ∀ r : Report,
    (recommendPackageFromReport r).discountedPrice
        = some (halfUpRound2 ((recommendPackageFromReport r).price * (1 - 15 / 100))) ∧
    (recommendPackageFromReport r).discountPercent = 15 ∧
    (recommendPackageFromReport r).code = "BEACON15" ∧
    (recommendPackageFromReport r).urgencyLine
        = "Book within 48 hours to claim the discount." ∧
    (recommendPackageFromReport (mkR (.num 70))).discountedPrice
        = some (8483 / 20) := by
  intro r
  refine ⟨?_, rfl, rfl, rfl, ?_⟩
  · simp only [recommendPackageFromReport, calcDiscountedPrice, halfUpRound2,
      jsMathRound]
  · simp [recommendPackageFromReport, mkR, jsNumberScore, calcDiscountedPrice,
      jsMathRound]
    rw [if_neg (by decide)]
    norm_num

/-- C9: the Recommendation Engine is a pure function of the score alone — two
reports with equal scores get identical recommendations in every field. -/
theorem C9_recommend_pure (r₁ r₂ : Report) (h : r₁.score = r₂.score) :
    recommendPackageFromReport r₁ = recommendPackageFromReport r₂ := by
  simp only [recommendPackageFromReport, h]

/-- C9 witness: two reports differing everywhere except the score. -/
theorem C9_recommend_pure_witness :
    (⟨"a", "b", .num 70, none⟩ : Report).score
        = (⟨"c", "d", .num 70, some "s"⟩ : Report).score ∧
    recommendPackageFromReport ⟨"a", "b", .num 70, none⟩
        = recommendPackageFromReport ⟨"c", "d", .num 70, some "s"⟩ :=
  ⟨rfl, C9_recommend_pure _ _ rfl⟩

/-- C1 (code bug): when the Report insert on a cache miss fails because the
row already exists, the handler does **not** fall back to re-reading the
now-present row — it aborts with a 500 carrying the storage error, performs no
further read, and persists nothing (the sole effect is the failed insert
attempt). -/
theorem C1_insert_conflict_returns_500 :
    apiAnalyze envC1 bodyC1 =
      (⟨500, false, none, none,
         some "duplicate key value violates unique constraint"⟩,
       [.reportWrite (stubReport (hashString "example.com") "example.com") false]) := by
  rfl

/-- When the resolver yields an error or an empty record list for every
domain, `emailHasMx` is `false` (helper shared by the handler theorems). -/
theorem emailHasMx_false_of_resolver (resolve : String → Except Unit (List Nat))
    (h : ∀ d, resolve d = .error () ∨ resolve d = .ok []) (v : String) :
    emailHasMx resolve v = false := by
  unfold emailHasMx
  cases hsplit : (jsSplit '@' (jsLower (jsTrim v.data)))[1]? with
  | none => simp [hsplit]
  | some dom =>
    simp only [hsplit]
    by_cases hd : dom = []
    · simp [hd]
    · rcases h (String.mk dom) with h' | h' <;> simp [hd, h']

/-- C4: a `/api/analyze` request with a syntactically valid email whose
domain resolution errors or yields no MX records is answered 400 with the
unreachable-domain message, with zero Report, Lead, or Event writes — both
email checks run strictly before any persistence. -/
theorem C4_mx_failure_no_writes (env : Env) (body : AnalyzeBody)
    (hW : body.website ≠ "")
    (hFmt : isValidEmailFormat (jsLowerS (jsTrimS body.email)) = true)
    (hMx : ∀ d, env.resolveMx d = .error () ∨ env.resolveMx d = .ok []) :
    apiAnalyze env body =
      (⟨400, false, none, none,
        some "That email domain cannot receive email. Please use a real email."⟩,
       []) := by
  have hE : body.email ≠ "" := by
    intro h
    rw [h] at hFmt
    exact absurd hFmt (by decide)
  have hmx := emailHasMx_false_of_resolver env.resolveMx hMx
    (jsLowerS (jsTrimS body.email))
  simp [apiAnalyze, hE, hW, hFmt, hmx]

/-- C4 witness: a concrete valid-format email against an erroring resolver. -/
theorem C4_mx_failure_no_writes_witness :
    ("user@nomx.example" : String) ≠ "" ∧
    isValidEmailFormat (jsLowerS (jsTrimS "user@nomx.example")) = true ∧
    apiAnalyze
        ⟨fun _ => .error (), fun _ => .ok none, fun _ => none, fun _ => none,
         fun _ => none, true, true⟩
        ⟨"", "user@nomx.example", "nomx.example", "", "", none⟩ =
      (⟨400, false, none, none,
        some "That email domain cannot receive email. Please use a real email."⟩,
       []) :=
  ⟨by decide, by decide,
   C4_mx_failure_no_writes _ _ (by decide) (by decide) (fun d => Or.inl rfl)⟩

/-- C7: on a cache hit, `/api/analyze` answers 200 with `cached = true` and
the stored report verbatim; the full effect trace is one Lead write followed —
only when `refresh === true` — by the re-sent notification email, so the
Report store is never written, the stored score/summary are never overwritten,
and the Report Source is never re-invoked. -/
theorem C7_cache_hit_immutable (env : Env) (body : AnalyzeBody) (dom : String)
    (rpt : Report)
    (hW : body.website ≠ "")
    (hFmt : isValidEmailFormat (jsLowerS (jsTrimS body.email)) = true)
    (hMx : emailHasMx env.resolveMx (jsLowerS (jsTrimS body.email)) = true)
    (hUrl : normalizeUrl body.website = some dom)
    (hCache : env.cacheLookup (hashString dom) = .ok (some rpt)) :
    apiAnalyze env body =
      (⟨200, true, some true, some rpt, none⟩,
       saveLead env (jsLowerS (jsTrimS body.email))
           (jsTrimS (jsOrS body.businessName (jsOrS body.business_name "")))
           body.name dom (hashString dom) rpt.score rpt.summary
           (recommendPackageFromReport rpt) ::
         (if body.refresh = some true then
           sendBeaconReportEmail env (jsLowerS (jsTrimS body.email))
             "Your Beacon AI website report"
         else [])) ∧
    (∀ r b, Effect.reportWrite r b ∉ (apiAnalyze env body).snd) := by
  have hE : body.email ≠ "" := by
    intro h
    rw [h] at hFmt
    exact absurd hFmt (by decide)
  have h1 : apiAnalyze env body =
      (⟨200, true, some true, some rpt, none⟩,
       saveLead env (jsLowerS (jsTrimS body.email))
           (jsTrimS (jsOrS body.businessName (jsOrS body.business_name "")))
           body.name dom (hashString dom) rpt.score rpt.summary
           (recommendPackageFromReport rpt) ::
         (if body.refresh = some true then
           sendBeaconReportEmail env (jsLowerS (jsTrimS body.email))
             "Your Beacon AI website report"
         else [])) := by
    simp [apiAnalyze, hE, hW, hFmt, hMx, hUrl, hCache]
  refine ⟨h1, ?_⟩
  intro r b hmem
  rw [h1] at hmem
  simp only [List.mem_cons] at hmem
  rcases hmem with h' | h'
  · exact absurd h'.symm (by simp [saveLead])
  · by_cases hr : body.refresh = some true
    · rw [if_pos hr] at h'
      simp only [sendBeaconReportEmail] at h'
      split at h'
      · simp at h'
      · split at h'
        · simp at h'
        · simp at h'
    · rw [if_neg hr] at h'
      simp at h'

/-- C7 witness: a concrete cache hit with `refresh = true`. -/
theorem C7_cache_hit_immutable_witness :
    (("client.com" : String) ≠ "" ∧
     isValidEmailFormat (jsLowerS (jsTrimS "owner@client.com")) = true ∧
     emailHasMx
       (fun _ => Except.ok [10]) (jsLowerS (jsTrimS "owner@client.com")) = true ∧
     normalizeUrl "client.com" = some "client.com") ∧
    (apiAnalyze
        ⟨fun _ => .ok [10],
         fun _ => .ok (some ⟨"h0", "client.com", .num 91, some "great"⟩),
         fun _ => none, fun _ => none, fun _ => none, true, true⟩
        ⟨"", "owner@client.com", "client.com", "Client", "", some true⟩).fst =
      ⟨200, true, some true, some ⟨"h0", "client.com", .num 91, some "great"⟩,
       none⟩ ∧
    (∀ r b, Effect.reportWrite r b ∉
      (apiAnalyze
        ⟨fun _ => .ok [10],
         fun _ => .ok (some ⟨"h0", "client.com", .num 91, some "great"⟩),
         fun _ => none, fun _ => none, fun _ => none, true, true⟩
        ⟨"", "owner@client.com", "client.com", "Client", "", some true⟩).snd) := by
  have h := C7_cache_hit_immutable
    ⟨fun _ => .ok [10],
     fun _ => .ok (some ⟨"h0", "client.com", .num 91, some "great"⟩),
     fun _ => none, fun _ => none, fun _ => none, true, true⟩
    ⟨"", "owner@client.com", "client.com", "Client", "", some true⟩
    "client.com" ⟨"h0", "client.com", .num 91, some "great"⟩
    (by decide) (by decide) (by decide) (by decide) rfl
  exact ⟨⟨by decide, by decide, by decide, by decide⟩,
    by rw [h.1], h.2⟩

/-- C8: for an otherwise-valid `/api/analyze` request (any cache-lookup
outcome, succeeding report insert), the response carries status 200,
`ok = true`, the correct cached flag and report, and is identical to the
response under an always-succeeding lead insert — a Lead-write failure never
propagates to the caller. -/
theorem C8_lead_failure_isolated (env : Env) (body : AnalyzeBody)
    (dom : String) (cr : Option Report)
    (hW : body.website ≠ "")
    (hFmt : isValidEmailFormat (jsLowerS (jsTrimS body.email)) = true)
    (hMx : emailHasMx env.resolveMx (jsLowerS (jsTrimS body.email)) = true)
    (hUrl : normalizeUrl body.website = some dom)
    (hCache : env.cacheLookup (hashString dom) = .ok cr)
    (hIns : ∀ r, env.reportInsert r = none) :
    (apiAnalyze env body).fst.status = 200 ∧
    (apiAnalyze env body).fst.ok = true ∧
    (apiAnalyze env body).fst.cached = some cr.isSome ∧
    (apiAnalyze env body).fst.report
        = some (cr.getD (stubReport (hashString dom) dom)) ∧
    (apiAnalyze env body).fst = (apiAnalyze (envLeadOk env) body).fst := by
  have hE : body.email ≠ "" := by
    intro h
    rw [h] at hFmt
    exact absurd hFmt (by decide)
  cases cr with
  | some rpt =>
    simp [apiAnalyze, envLeadOk, hE, hW, hFmt, hMx, hUrl, hCache, hIns]
  | none =>
    simp [apiAnalyze, envLeadOk, hE, hW, hFmt, hMx, hUrl, hCache, hIns]

/-- C8 witness: a failing lead insert on a cache miss still yields the 200
miss response. -/
theorem C8_lead_failure_isolated_witness :
    (("client.com" : String) ≠ "" ∧
     isValidEmailFormat (jsLowerS (jsTrimS "owner@client.com")) = true ∧
     emailHasMx
       (fun _ => Except.ok [10]) (jsLowerS (jsTrimS "owner@client.com")) = true ∧
     normalizeUrl "client.com" = some "client.com") ∧
    (apiAnalyze
        ⟨fun _ => .ok [10], fun _ => .ok none, fun _ => none,
         fun _ => some "lead storage down", fun _ => none, true, true⟩
        ⟨"", "owner@client.com", "client.com", "", "", none⟩).fst.status = 200 ∧
    (apiAnalyze
        ⟨fun _ => .ok [10], fun _ => .ok none, fun _ => none,
         fun _ => some "lead storage down", fun _ => none, true, true⟩
        ⟨"", "owner@client.com", "client.com", "", "", none⟩).fst.ok = true := by
  have h := C8_lead_failure_isolated
    ⟨fun _ => .ok [10], fun _ => .ok none, fun _ => none,
     fun _ => some "lead storage down", fun _ => none, true, true⟩
    ⟨"", "owner@client.com", "client.com", "", "", none⟩
    "client.com" none
    (by decide) (by decide) (by decide) (by decide) rfl (fun r => rfl)
  exact ⟨⟨by decide, by decide, by decide, by decide⟩, h.1, h.2.1⟩

/-- `jsOrNull none = none` (helper). -/
theorem jsOrNull_none : jsOrNull none = none := rfl

/-- `jsOrNull` is idempotent (helper for the `/r` theorem). -/
theorem jsOrNull_idem (v : Option String) : jsOrNull (jsOrNull v) = jsOrNull v := by
  cases v with
  | none => rfl
  | some s => by_cases h : s = "" <;> simp [jsOrNull, h]

/-- C5: `GET /r` with a missing, blank, or non-`http(s)://` destination
answers 400 "Bad redirect" with no Event write and no redirect; with a valid
destination it attempts exactly one Event write — `event_type` defaulting to
`"click"`, email omitted — and then redirects 302 to the destination, whether
or not the Event insert succeeds. -/
theorem C5_redirect_tracker (env : Env) (req : RReq) :
    (safeString req.toParam = ""
        ∨ hasHttpScheme (safeString req.toParam).data = false →
      rRedirect env req = (.badText 400 "Bad redirect", [])) ∧
    (safeString req.toParam ≠ "" →
     hasHttpScheme (safeString req.toParam).data = true →
      ∃ row : EventRow,
        rRedirect env req =
          (.redirect 302 (safeString req.toParam),
           [.eventWrite row (env.eventInsert row).isNone]) ∧
        row.event_type = jsOrS (safeString req.e) "click" ∧
        row.email = none) := by
  constructor
  · intro hbad
    rw [rRedirect, if_pos hbad]
  · intro hne hscheme
    refine ⟨⟨jsOrS (safeString req.e) "click", none,
      jsOrNull (some (safeString req.h)), jsOrNull (some (safeString req.d)),
      jsOrNull (some (safeString req.t)),
      some ⟨jsOrNull req.userAgent, jsOrNull req.referer⟩⟩, ?_, rfl, rfl⟩
    rw [rRedirect, if_neg]
    · simp [logEvent, jsOrNull_idem, jsOrNull_none]
    · rintro (h | h)
      · exact hne h
      · rw [hscheme] at h
        exact absurd h (by decide)

/-- C5 witness: the spec's two concrete examples, against an env whose event
insert fails (the redirect still happens). -/
theorem C5_redirect_tracker_witness :
    (hasHttpScheme (safeString (some "javascript:alert(1)")).data = false ∧
     rRedirect
        ⟨fun _ => .ok [], fun _ => .ok none, fun _ => none, fun _ => none,
         fun _ => some "events table down", true, true⟩
        ⟨some "javascript:alert(1)", none, none, none, none, none, none⟩ =
       (.badText 400 "Bad redirect", [])) ∧
    (safeString (some "https://example.com") ≠ "" ∧
     hasHttpScheme (safeString (some "https://example.com")).data = true ∧
     ∃ row : EventRow,
       rRedirect
          ⟨fun _ => .ok [], fun _ => .ok none, fun _ => none, fun _ => none,
           fun _ => some "events table down", true, true⟩
          ⟨some "https://example.com", some "click", some "abc", none, none,
           none, none⟩ =
         (.redirect 302 (safeString (some "https://example.com")),
          [.eventWrite row false]) ∧
       row.event_type = "click" ∧
       row.email = none) := by
  refine ⟨⟨by decide, ?_⟩, by decide, by decide, ?_⟩
  · exact (C5_redirect_tracker _ _).1 (Or.inr (by decide))
  · obtain ⟨row, h1, h2, h3⟩ := (C5_redirect_tracker
      ⟨fun _ => .ok [], fun _ => .ok none, fun _ => none, fun _ => none,
       fun _ => some "events table down", true, true⟩
      ⟨some "https://example.com", some "click", some "abc", none, none,
       none, none⟩).2 (by decide) (by decide)
    refine ⟨row, h1, ?_, h3⟩
    rw [h2]
    decide

/-! ## Character-level lemmas about `lcChar` and the host character classes -/

/-- Characters with equal code points are equal. -/
theorem charToNat_inj {c d : Char} (h : c.toNat = d.toNat) : c = d := by
  have hc := Char.ofNat_toNat c
  rw [h, Char.ofNat_toNat d] at hc
  exact hc.symm

/-- `lcChar` on an uppercase ASCII letter adds 32 to the code point. -/
theorem lcChar_toNat_of_upper {c : Char} (h1 : 65 ≤ c.toNat)
    (h2 : c.toNat ≤ 90) : (lcChar c).toNat = c.toNat + 32 := by
  have hval : (c.toNat + 32).isValidChar := Or.inl (by omega)
  rw [lcChar, if_pos (by simp [h1, h2]), Char.ofNat, dif_pos hval]
  rfl

/-- `lcChar` fixes everything that is not an uppercase ASCII letter. -/
theorem lcChar_eq_of_not_upper {c : Char}
    (h : ¬(65 ≤ c.toNat ∧ c.toNat ≤ 90)) : lcChar c = c := by
  rw [lcChar, if_neg (by simpa using h)]

/-- Code-point case split for `lcChar`. -/
theorem lcChar_cases (c : Char) :
    lcChar c = c ∨
    (65 ≤ c.toNat ∧ c.toNat ≤ 90 ∧ (lcChar c).toNat = c.toNat + 32) := by
  by_cases h : 65 ≤ c.toNat ∧ c.toNat ≤ 90
  · exact Or.inr ⟨h.1, h.2, lcChar_toNat_of_upper h.1 h.2⟩
  · exact Or.inl (lcChar_eq_of_not_upper h)

/-- `lcChar` never outputs an uppercase ASCII letter. -/
theorem lcChar_not_upper (c : Char) :
    ¬(65 ≤ (lcChar c).toNat ∧ (lcChar c).toNat ≤ 90) := by
  rcases lcChar_cases c with h | ⟨h1, h2, h3⟩
  · rw [h]
    by_cases hu : 65 ≤ c.toNat ∧ c.toNat ≤ 90
    · exact absurd (lcChar_toNat_of_upper hu.1 hu.2) (by rw [h]; omega)
    · exact hu
  · omega

/-- `lcChar` is idempotent. -/
theorem lcChar_lcChar (c : Char) : lcChar (lcChar c) = lcChar c :=
  lcChar_eq_of_not_upper (lcChar_not_upper c)

/-- `jsLower` is idempotent. -/
theorem jsLower_idem (l : List Char) : jsLower (jsLower l) = jsLower l := by
  simp only [jsLower, List.map_map]
  exact List.map_congr_left fun c _ => lcChar_lcChar c

/-- The arithmetic content of `validHostChar`. -/
theorem validHostChar_iff (c : Char) :
    validHostChar c = true ↔
      (33 ≤ c.toNat ∧ c.toNat ≤ 126 ∧ c.toNat ≠ 35 ∧ c.toNat ≠ 37 ∧
       c.toNat ≠ 47 ∧ c.toNat ≠ 58 ∧ c.toNat ≠ 60 ∧ c.toNat ≠ 62 ∧
       c.toNat ≠ 63 ∧ c.toNat ≠ 64 ∧ c.toNat ≠ 91 ∧ c.toNat ≠ 92 ∧
       c.toNat ≠ 93 ∧ c.toNat ≠ 94 ∧ c.toNat ≠ 124) := by
  simp [validHostChar]
  omega

/-- Valid host characters stay valid under `lcChar`. -/
theorem validHostChar_lcChar {c : Char} (h : validHostChar c = true) :
    validHostChar (lcChar c) = true := by
  rw [validHostChar_iff] at h ⊢
  rcases lcChar_cases c with h' | ⟨h1, h2, h3⟩
  · rw [h']
    exact h
  · omega

/-- Valid host characters are not whitespace. -/
theorem validHostChar_not_ws {c : Char} (h : validHostChar c = true) :
    isWsChar c = false := by
  rw [validHostChar_iff] at h
  simp [isWsChar]
  omega

/-- Valid host characters do not terminate an authority. -/
theorem validHostChar_not_term {c : Char} (h : validHostChar c = true) :
    hostTermChar c = false := by
  rw [validHostChar_iff] at h
  simp [hostTermChar]
  omega

/-- Valid host characters are not `@`. -/
theorem validHostChar_ne_at {c : Char} (h : validHostChar c = true) :
    (c.toNat != 64) = true := by
  rw [validHostChar_iff] at h
  simp
  omega

/-- Valid host characters are not `:`. -/
theorem validHostChar_ne_colon {c : Char} (h : validHostChar c = true) :
    (c.toNat != 58) = true := by
  rw [validHostChar_iff] at h
  simp
  omega

/-- `lcChar` of a valid host character is never `:` (code 58 is not a
letter). -/
theorem lc_ne_colon {c : Char} (h : validHostChar c = true) :
    (lcChar c == ':') = false := by
  rw [validHostChar_iff] at h
  rcases lcChar_cases c with h' | ⟨h1, h2, h3⟩
  · rw [h']
    simp only [beq_eq_false_iff_ne, ne_eq]
    intro hc
    rw [hc] at h
    revert h
    decide
  · simp only [beq_eq_false_iff_ne, ne_eq]
    intro hc
    have : (lcChar c).toNat = 58 := by rw [hc]; rfl
    omega

/-- Authority terminators are not uppercase letters, so `lcChar` fixes
them. -/
theorem term_not_upper {t : Char} (h : hostTermChar t = true) : lcChar t = t := by
  simp [hostTermChar] at h
  exact lcChar_eq_of_not_upper (by omega)

/-- An authority terminator never lowercases onto the letters of `http`/
`https` or onto `:`. -/
theorem term_ne_scheme_chars {t : Char} (h : hostTermChar t = true) :
    (lcChar t == 'h') = false ∧ (lcChar t == 't') = false ∧
    (lcChar t == 'p') = false ∧ (lcChar t == 's') = false ∧
    (lcChar t == ':') = false := by
  have hn : t.toNat = 47 ∨ t.toNat = 63 ∨ t.toNat = 35 ∨ t.toNat = 92 := by
    have := h
    simp [hostTermChar] at this
    omega
  rw [term_not_upper h]
  refine ⟨?_, ?_, ?_, ?_, ?_⟩ <;>
    · simp only [beq_eq_false_iff_ne, ne_eq]
      intro hc
      rw [hc] at hn
      revert hn
      decide

/-! ## List-level lemmas -/

/-- `dropWhile` is the identity when no element satisfies the predicate. -/
theorem dropWhile_eq_self_of_all {p : Char → Bool} {l : List Char}
    (h : ∀ c ∈ l, p c = false) : l.dropWhile p = l := by
  cases l with
  | nil => rfl
  | cons a t => simp [List.dropWhile, h a (by simp)]

/-- `jsTrim` is the identity on whitespace-free lists. -/
theorem jsTrim_eq_self_of_all {l : List Char}
    (h : ∀ c ∈ l, isWsChar c = false) : jsTrim l = l := by
  unfold jsTrim
  rw [dropWhile_eq_self_of_all h,
    dropWhile_eq_self_of_all (fun c hc => h c (List.mem_reverse.mp hc)),
    List.reverse_reverse]

/-- `takeWhile` is the identity when every element satisfies the predicate. -/
theorem takeWhile_eq_self_of_all {p : Char → Bool} :
    ∀ {l : List Char}, (∀ c ∈ l, p c = true) → l.takeWhile p = l
  | [], _ => rfl
  | a :: t, h => by
    show List.takeWhile p (a :: t) = a :: t
    rw [List.takeWhile_cons, h a (by simp)]
    simp only [if_true]
    rw [takeWhile_eq_self_of_all fun c hc => h c (by simp [hc])]

/-- `takeWhile` over an all-satisfying prefix distributes over append. -/
theorem takeWhile_append_of_all {p : Char → Bool} (b : List Char) :
    ∀ {a : List Char}, (∀ c ∈ a, p c = true) →
      List.takeWhile p (a ++ b) = a ++ List.takeWhile p b
  | [], _ => rfl
  | x :: t, h => by
    show List.takeWhile p (x :: (t ++ b)) = x :: (t ++ List.takeWhile p b)
    rw [List.takeWhile_cons, h x (by simp)]
    simp only [if_true]
    rw [takeWhile_append_of_all b fun c hc => h c (by simp [hc])]

/-- `afterLastAt` is the identity when `@` does not occur. -/
theorem afterLastAt_eq_self_of_all {l : List Char}
    (h : ∀ c ∈ l, (c.toNat != 64) = true) : afterLastAt l = l := by
  unfold afterLastAt
  rw [takeWhile_eq_self_of_all (fun c hc => h c (List.mem_reverse.mp hc)),
    List.reverse_reverse]

/-- `splitPort` is the identity (no port) when `:` does not occur. -/
theorem splitPort_eq_self_of_all {l : List Char}
    (h : ∀ c ∈ l, (c.toNat != 58) = true) : splitPort l = some l := by
  unfold splitPort
  rw [takeWhile_eq_self_of_all h]
  simp

/-- `jsUrlHost` on `https://` followed by a plain valid host: the host comes
back unchanged. -/
theorem jsUrlHost_https_host {dl : List Char} (hne : dl ≠ [])
    (hv : ∀ c ∈ dl, validHostChar c = true) :
    jsUrlHost ("https://".data ++ dl) = some dl := by
  have hscheme : schemeLen ("https://".data ++ dl) = 8 := rfl
  have hdrop : ("https://".data ++ dl).drop 8 = dl :=
    List.drop_left "https://".data dl
  unfold jsUrlHost
  rw [hscheme]
  simp only [hdrop]
  rw [@takeWhile_eq_self_of_all (fun c => !hostTermChar c) dl
    (fun c hc => by simp [validHostChar_not_term (hv c hc)])]
  rw [afterLastAt_eq_self_of_all (fun c hc => validHostChar_ne_at (hv c hc))]
  rw [splitPort_eq_self_of_all (fun c hc => validHostChar_ne_colon (hv c hc))]
  simp [hne, List.all_eq_true.mpr hv]

/-- A list of valid host characters never passes the `/^https?:\/\//i`
test: matching would place a character that lowercases to `:` (position 4
or 5), a character that lowercases onto a scheme letter, or run out of
input. -/
theorem hasHttpScheme_false_of_valid {l : List Char}
    (hv : ∀ c ∈ l, validHostChar c = true) : hasHttpScheme l = false := by
  match l, hv with
  | [], _ => rfl
  | [a], hv =>
    have ha := lc_ne_colon (hv a (by simp))
    simp [hasHttpScheme, matchesCI]
  | [a, b], hv => simp [hasHttpScheme, matchesCI]
  | [a, b, c], hv => simp [hasHttpScheme, matchesCI]
  | [a, b, c, d], hv => simp [hasHttpScheme, matchesCI]
  | [a, b, c, d, e], hv =>
    have he := lc_ne_colon (hv e (by simp))
    simp [hasHttpScheme, matchesCI, he]
  | [a, b, c, d, e, f], hv =>
    have he := lc_ne_colon (hv e (by simp))
    have hf := lc_ne_colon (hv f (by simp))
    simp [hasHttpScheme, matchesCI, he, hf]
  | a :: b :: c :: d :: e :: f :: g :: t, hv =>
    have he := lc_ne_colon (hv e (by simp))
    have hf := lc_ne_colon (hv f (by simp))
    simp [hasHttpScheme, matchesCI, he, hf]

/-- `normalizeUrlL` fixes a nonempty, already-lowercase, valid-host-character
list that does not begin with `www.` — the core of normalization
idempotence. -/
theorem normalizeUrlL_fixed {dl : List Char} (hne : dl ≠ [])
    (hv : ∀ c ∈ dl, validHostChar c = true) (hlower : jsLower dl = dl)
    (hw : startsWithL "www.".data dl = false) :
    normalizeUrlL dl = some dl := by
  have hw' : startsWithL ['w', 'w', 'w', '.'] dl = false := hw
  unfold normalizeUrlL
  rw [jsTrim_eq_self_of_all (fun c hc => validHostChar_not_ws (hv c hc))]
  rw [if_neg hne]
  rw [hasHttpScheme_false_of_valid hv]
  simp only [Bool.false_eq_true, if_false]
  rw [jsUrlHost_https_host hne hv]
  simp [hlower, hw']

/-- The host delivered by `jsUrlHost` consists of valid host characters. -/
theorem jsUrlHost_valid {l host : List Char} (h : jsUrlHost l = some host) :
    ∀ c ∈ host, validHostChar c = true := by
  simp only [jsUrlHost] at h
  cases hsp : splitPort (afterLastAt
      (List.takeWhile (fun c => !hostTermChar c) (l.drop (schemeLen l)))) with
  | none => rw [hsp] at h; cases h
  | some hp =>
    rw [hsp] at h
    have h2 : (if hp ≠ [] ∧ hp.all validHostChar = true then some hp
        else none) = some host := h
    by_cases hc : hp ≠ [] ∧ hp.all validHostChar = true
    · rw [if_pos hc] at h2
      injection h2 with h'
      subst h'
      exact fun c hc' => List.all_eq_true.mp hc.2 c hc'
    · rw [if_neg hc] at h2
      cases h2

/-- Shape of a successful normalization: the returned domain consists of
valid host characters and is already lowercase. -/
theorem normalizeUrlL_success {input d : List Char}
    (h : normalizeUrlL input = some d) :
    (∀ c ∈ d, validHostChar c = true) ∧ jsLower d = d := by
  simp only [normalizeUrlL] at h
  by_cases hurl : jsTrim input = []
  · rw [if_pos hurl] at h
    cases h
  · rw [if_neg hurl] at h
    cases hhost : jsUrlHost
        (if hasHttpScheme (jsTrim input) = true then jsTrim input
         else "https://".data ++ jsTrim input) with
    | none => rw [hhost] at h; cases h
    | some host =>
      rw [hhost] at h
      injection h with h'
      have hv := jsUrlHost_valid hhost
      have hvl : ∀ c ∈ jsLower host, validHostChar c = true := by
        intro c hc
        obtain ⟨c0, hc0, rfl⟩ := List.mem_map.mp hc
        exact validHostChar_lcChar (hv c0 hc0)
      by_cases hww : startsWithL "www.".data (jsLower host) = true
      · rw [if_pos hww] at h'
        subst h'
        constructor
        · exact fun c hc => hvl c (List.mem_of_mem_drop hc)
        · show jsLower (List.drop 4 (jsLower host)) = List.drop 4 (jsLower host)
          have hstep : jsLower (List.drop 4 (jsLower host))
              = List.drop 4 (jsLower (jsLower host)) :=
            List.map_drop lcChar (jsLower host) 4
          rw [hstep, jsLower_idem]
      · rw [if_neg hww] at h'
        subst h'
        exact ⟨hvl, jsLower_idem host⟩

/-- C10 (amended): normalization is idempotent on every successfully returned
domain that is nonempty and does not itself begin with a `www.` label:
`normalizeUrl raw = some d` implies `normalizeUrl d = some d`. -/
theorem C10_normalize_idempotent (raw d : String)
    (h : normalizeUrl raw = some d)
    (hw : startsWithL "www.".data d.data = false)
    (hne : d ≠ "") :
    normalizeUrl d = some d := by
  unfold normalizeUrl at h ⊢
  cases hld : normalizeUrlL raw.data with
  | none => rw [hld] at h; cases h
  | some dl =>
    rw [hld] at h
    simp only [Option.map_some'] at h
    injection h with h'
    obtain ⟨hv, hlower⟩ := normalizeUrlL_success hld
    have hdata : d.data = dl := by rw [← h']
    have hneL : d.data ≠ [] := by
      intro h0
      apply hne
      have hmk : d = String.mk d.data := rfl
      rw [hmk, h0]
    rw [hdata] at hneL hw ⊢
    rw [normalizeUrlL_fixed hneL hv hlower hw]
    rw [← h']
    rfl

/-- C10 witness: a concrete successful normalization re-normalizing to
itself. -/
theorem C10_normalize_idempotent_witness :
    normalizeUrl "https://Example.com/path" = some "example.com" ∧
    startsWithL "www.".data "example.com".data = false ∧
    ("example.com" : String) ≠ "" ∧
    normalizeUrl "example.com" = some "example.com" :=
  ⟨by decide, by decide, by decide,
   C10_normalize_idempotent "https://Example.com/path" "example.com"
     (by decide) (by decide) (by decide)⟩

/-- C10 counterexample: the output of `normalizeUrl` need not be a fixed
point — a doubled `www.` label is stripped only once, and the bare input
`www.` normalizes to the empty domain, on which normalization fails. -/
theorem C10_counterexample :
    normalizeUrl "www.www.beacon.ai" = some "www.beacon.ai" ∧
    normalizeUrl "www.beacon.ai" = some "beacon.ai" ∧
    some ("www.beacon.ai" : String) ≠ some ("beacon.ai" : String) ∧
    normalizeUrl "www." = some "" ∧
    normalizeUrl "" = none := by
  refine ⟨by decide, by decide, by decide, by decide, by decide⟩

/-- A nonempty valid host followed by an (optional) terminator-headed tail
never passes the `/^https?:\/\//i` test. -/
theorem hasHttpScheme_host_rest {host rest : List Char} (hne : host ≠ [])
    (hv : ∀ c ∈ host, validHostChar c = true)
    (hrest : rest = [] ∨ ∃ t tl, rest = t :: tl ∧ hostTermChar t = true) :
    hasHttpScheme (host ++ rest) = false := by
  rcases hrest with rfl | ⟨t, tl, rfl, ht⟩
  · rw [List.append_nil]
    exact hasHttpScheme_false_of_valid hv
  · obtain ⟨hth, htt, htp, hts, htc⟩ := term_ne_scheme_chars ht
    match host, hv, hne with
    | [a], hv, _ => simp [hasHttpScheme, matchesCI, htt]
    | [a, b], hv, _ => simp [hasHttpScheme, matchesCI, htt]
    | [a, b, c], hv, _ => simp [hasHttpScheme, matchesCI, htp]
    | [a, b, c, d], hv, _ => simp [hasHttpScheme, matchesCI, htc, hts]
    | [a, b, c, d, e], hv, _ =>
      have he := lc_ne_colon (hv e (by simp))
      simp [hasHttpScheme, matchesCI, he, htc]
    | a :: b :: c :: d :: e :: f :: t', hv, _ =>
      have he := lc_ne_colon (hv e (by simp))
      have hf := lc_ne_colon (hv f (by simp))
      simp [hasHttpScheme, matchesCI, he, hf]

/-- The hostname extracted from scheme ++ optional `www.` ++ valid host ++
terminator-headed tail is exactly the `www.`-prefixed host. -/
theorem jsUrlHost_authority (schD wwwD : List Char)
    (hsch : schD = "http://".data ∨ schD = "https://".data)
    (hwww : wwwD = [] ∨ wwwD = "www.".data)
    {host rest : List Char}
    (hne : host ≠ []) (hv : ∀ c ∈ host, validHostChar c = true)
    (hrest : rest = [] ∨ ∃ t tl, rest = t :: tl ∧ hostTermChar t = true) :
    jsUrlHost (schD ++ (wwwD ++ (host ++ rest))) = some (wwwD ++ host) := by
  have hwwwAll : ∀ c ∈ wwwD, validHostChar c = true := by
    rcases hwww with rfl | rfl
    · intro c hc
      cases hc
    · intro c hc
      fin_cases hc <;> decide
  have hlen : (schD ++ (wwwD ++ (host ++ rest))).drop
      (schemeLen (schD ++ (wwwD ++ (host ++ rest))))
      = wwwD ++ (host ++ rest) := by
    rcases hsch with rfl | rfl
    · have h7 : schemeLen ("http://".data ++ (wwwD ++ (host ++ rest))) = 7 := rfl
      rw [h7]
      exact List.drop_left "http://".data _
    · have h8 : schemeLen ("https://".data ++ (wwwD ++ (host ++ rest))) = 8 := rfl
      rw [h8]
      exact List.drop_left "https://".data _
  have hauth : List.takeWhile (fun c => !hostTermChar c) (wwwD ++ (host ++ rest))
      = wwwD ++ host := by
    rw [takeWhile_append_of_all _
      (fun c hc => by simp [validHostChar_not_term (hwwwAll c hc)])]
    rw [takeWhile_append_of_all _
      (fun c hc => by simp [validHostChar_not_term (hv c hc)])]
    rcases hrest with rfl | ⟨t, tl, rfl, ht⟩
    · simp
    · rw [List.takeWhile_cons]
      simp [ht]
  have hvAll : ∀ c ∈ wwwD ++ host, validHostChar c = true := by
    intro c hc
    rcases List.mem_append.mp hc with hc' | hc'
    · exact hwwwAll c hc'
    · exact hv c hc'
  unfold jsUrlHost
  simp only [hlen]
  rw [hauth]
  rw [afterLastAt_eq_self_of_all (fun c hc => validHostChar_ne_at (hvAll c hc))]
  rw [splitPort_eq_self_of_all (fun c hc => validHostChar_ne_colon (hvAll c hc))]
  have hne2 : wwwD ++ host ≠ [] := by
    simp [hne]
  simp [hne2, List.all_eq_true.mpr hvAll]

/-- Lowercasing then stripping one leading `www.` of `wwwD ++ host` gives the
lowercased host, when the lowercased host does not itself start with
`www.`. -/
theorem stripWww_lower (wwwD : List Char)
    (hwww : wwwD = [] ∨ wwwD = "www.".data) (host : List Char)
    (hw : startsWithL "www.".data (jsLower host) = false) :
    (if startsWithL "www.".data (jsLower (wwwD ++ host)) = true
     then (jsLower (wwwD ++ host)).drop 4
     else jsLower (wwwD ++ host)) = jsLower host := by
  rcases hwww with rfl | rfl
  · rw [List.nil_append, hw]
    simp
  · have hmap : jsLower ("www.".data ++ host) = "www.".data ++ jsLower host := by
      unfold jsLower
      rw [List.map_append]
      rfl
    rw [hmap]
    have hstart : startsWithL "www.".data ("www.".data ++ jsLower host) = true := by
      unfold startsWithL
      rw [List.take_left]
      exact beq_self_eq_true _
    rw [hstart]
    simp only [if_true]
    exact List.drop_left "www.".data _

/-- `normalizeUrlL` on scheme ++ optional `www.` ++ valid host ++
terminator-headed whitespace-free tail yields the lowercased host. -/
theorem normalizeUrlL_variants (schD wwwD : List Char)
    (hsch : schD = [] ∨ schD = "http://".data ∨ schD = "https://".data)
    (hwww : wwwD = [] ∨ wwwD = "www.".data)
    {host rest : List Char}
    (hne : host ≠ []) (hv : ∀ c ∈ host, validHostChar c = true)
    (hrest : rest = [] ∨ ∃ t tl, rest = t :: tl ∧ hostTermChar t = true)
    (hrw : ∀ c ∈ rest, isWsChar c = false)
    (hw : startsWithL "www.".data (jsLower host) = false) :
    normalizeUrlL (schD ++ (wwwD ++ (host ++ rest))) = some (jsLower host) := by
  have hwsAll : ∀ c ∈ schD ++ (wwwD ++ (host ++ rest)), isWsChar c = false := by
    intro c hc
    rcases List.mem_append.mp hc with hc' | hc'
    · rcases hsch with rfl | rfl | rfl
      · cases hc'
      · fin_cases hc' <;> decide
      · fin_cases hc' <;> decide
    · rcases List.mem_append.mp hc' with hc'' | hc''
      · rcases hwww with rfl | rfl
        · cases hc''
        · fin_cases hc'' <;> decide
      · rcases List.mem_append.mp hc'' with hc3 | hc3
        · exact validHostChar_not_ws (hv c hc3)
        · exact hrw c hc3
  have hne2 : schD ++ (wwwD ++ (host ++ rest)) ≠ [] := by
    simp [hne]
  unfold normalizeUrlL
  rw [jsTrim_eq_self_of_all hwsAll]
  rw [if_neg hne2]
  rcases hsch with rfl | rfl | rfl
  · have hs : hasHttpScheme ([] ++ (wwwD ++ (host ++ rest))) = false := by
      rw [List.nil_append]
      rcases hwww with rfl | rfl
      · rw [List.nil_append]
        exact hasHttpScheme_host_rest hne hv hrest
      · rfl
    rw [hs]
    simp only [Bool.false_eq_true, if_false, List.nil_append]
    rw [jsUrlHost_authority "https://".data wwwD (Or.inr rfl) hwww hne hv hrest]
    show some (if startsWithL "www.".data (jsLower (wwwD ++ host)) = true
      then (jsLower (wwwD ++ host)).drop 4
      else jsLower (wwwD ++ host)) = some (jsLower host)
    rw [stripWww_lower wwwD hwww host hw]
  · have hs : hasHttpScheme ("http://".data ++ (wwwD ++ (host ++ rest))) = true := rfl
    rw [hs]
    simp only [if_true]
    rw [jsUrlHost_authority "http://".data wwwD (Or.inl rfl) hwww hne hv hrest]
    show some (if startsWithL "www.".data (jsLower (wwwD ++ host)) = true
      then (jsLower (wwwD ++ host)).drop 4
      else jsLower (wwwD ++ host)) = some (jsLower host)
    rw [stripWww_lower wwwD hwww host hw]
  · have hs : hasHttpScheme ("https://".data ++ (wwwD ++ (host ++ rest))) = true := rfl
    rw [hs]
    simp only [if_true]
    rw [jsUrlHost_authority "https://".data wwwD (Or.inr rfl) hwww hne hv hrest]
    show some (if startsWithL "www.".data (jsLower (wwwD ++ host)) = true
      then (jsLower (wwwD ++ host)).drop 4
      else jsLower (wwwD ++ host)) = some (jsLower host)
    rw [stripWww_lower wwwD hwww host hw]

/-- `jsTrim` of an all-whitespace list is empty. -/
theorem jsTrim_all_ws {l : List Char} (h : ∀ c ∈ l, isWsChar c = true) :
    jsTrim l = [] := by
  unfold jsTrim
  rw [List.dropWhile_eq_nil_iff.mpr (fun c hc => h c hc)]
  rfl

/-- Blank (all-whitespace, possibly empty) input fails normalization
(shared helper). -/
theorem normalizeUrl_blank (s : String) (h : ∀ c ∈ s.data, isWsChar c = true) :
    normalizeUrl s = none := by
  unfold normalizeUrl normalizeUrlL
  rw [jsTrim_all_ws h]
  rfl

/-- C3 (amended): over the modelled URL fragment — a nonempty host of valid
host characters whose lowercase form does not itself begin with `www.`,
followed by an empty or terminator-headed whitespace-free tail — the
normalizer maps every scheme/`www.` variant to the lowercased host, so two raw
URLs that differ only by the presence of `http://`/`https://`, by the case of
the host, or by one leading `www.` label yield the same domain and hence the
same fingerprint; blank input and unparseable input fail. -/
theorem C3_normalizer_invariance :
    (∀ (sch : Option Bool) (www : Bool) (host rest : String),
      host.data ≠ [] →
      (∀ c ∈ host.data, validHostChar c = true) →
      (rest.data = [] ∨ ∃ t tl, rest.data = t :: tl ∧ hostTermChar t = true) →
      (∀ c ∈ rest.data, isWsChar c = false) →
      startsWithL "www.".data (jsLower host.data) = false →
      normalizeUrl (rawUrl sch www host rest) = some (jsLowerS host)) ∧
    (∀ (sch₁ sch₂ : Option Bool) (www₁ www₂ : Bool) (host₁ host₂ rest : String),
      host₁.data ≠ [] → host₂.data ≠ [] →
      (∀ c ∈ host₁.data, validHostChar c = true) →
      (∀ c ∈ host₂.data, validHostChar c = true) →
      (rest.data = [] ∨ ∃ t tl, rest.data = t :: tl ∧ hostTermChar t = true) →
      (∀ c ∈ rest.data, isWsChar c = false) →
      startsWithL "www.".data (jsLower host₁.data) = false →
      jsLower host₁.data = jsLower host₂.data →
      normalizeUrl (rawUrl sch₁ www₁ host₁ rest)
          = normalizeUrl (rawUrl sch₂ www₂ host₂ rest) ∧
      Option.map hashString (normalizeUrl (rawUrl sch₁ www₁ host₁ rest))
          = Option.map hashString (normalizeUrl (rawUrl sch₂ www₂ host₂ rest))) ∧
    (∀ s : String, (∀ c ∈ s.data, isWsChar c = true) → normalizeUrl s = none) ∧
    normalizeUrl "https://bad^host" = none := by
  have partA : ∀ (sch : Option Bool) (www : Bool) (host rest : String),
      host.data ≠ [] →
      (∀ c ∈ host.data, validHostChar c = true) →
      (rest.data = [] ∨ ∃ t tl, rest.data = t :: tl ∧ hostTermChar t = true) →
      (∀ c ∈ rest.data, isWsChar c = false) →
      startsWithL "www.".data (jsLower host.data) = false →
      normalizeUrl (rawUrl sch www host rest) = some (jsLowerS host) := by
    intro sch www host rest hne hv hrest hrw hw
    unfold normalizeUrl rawUrl
    have hdata : (schemeText sch ++ ((if www then "www." else "") ++ (host ++ rest))).data
        = (schemeText sch).data
          ++ ((if www then "www.".data else ([] : List Char))
            ++ (host.data ++ rest.data)) := by
      rw [String.data_append, String.data_append, String.data_append]
      cases www <;> rfl
    rw [hdata]
    have hsch : (schemeText sch).data = [] ∨
        (schemeText sch).data = "http://".data ∨
        (schemeText sch).data = "https://".data := by
      rcases sch with _ | b
      · exact Or.inl rfl
      · cases b
        · exact Or.inr (Or.inl rfl)
        · exact Or.inr (Or.inr rfl)
    have hwww : (if www then "www.".data else ([] : List Char)) = [] ∨
        (if www then "www.".data else ([] : List Char)) = "www.".data := by
      cases www
      · exact Or.inl rfl
      · exact Or.inr rfl
    rw [normalizeUrlL_variants _ _ hsch hwww hne hv hrest hrw hw]
    rfl
  refine ⟨partA, ?_, normalizeUrl_blank, by decide⟩
  intro sch₁ sch₂ www₁ www₂ host₁ host₂ rest hne₁ hne₂ hv₁ hv₂ hrest hrw hw₁ hlow
  have hw₂ : startsWithL "www.".data (jsLower host₂.data) = false := by
    rw [← hlow]
    exact hw₁
  have h₁ := partA sch₁ www₁ host₁ rest hne₁ hv₁ hrest hrw hw₁
  have h₂ := partA sch₂ www₂ host₂ rest hne₂ hv₂ hrest hrw hw₂
  have hS : jsLowerS host₁ = jsLowerS host₂ := by
    unfold jsLowerS
    rw [hlow]
  rw [h₁, h₂, hS]
  exact ⟨rfl, rfl⟩

/-- C3 witness: `HTTP://WWW.Example.com/path` and `example.com` are variants
of the same host and normalize to the same domain and fingerprint. -/
theorem C3_normalizer_invariance_witness :
    (("Example.com" : String).data ≠ [] ∧
     (∀ c ∈ ("Example.com" : String).data, validHostChar c = true) ∧
     (∀ c ∈ ("example.com" : String).data, validHostChar c = true) ∧
     (("/path" : String).data = [] ∨
       ∃ t tl, ("/path" : String).data = t :: tl ∧ hostTermChar t = true) ∧
     startsWithL "www.".data (jsLower ("Example.com" : String).data) = false ∧
     jsLower ("Example.com" : String).data
        = jsLower ("example.com" : String).data) ∧
    (normalizeUrl (rawUrl (some false) true "Example.com" "/path")
        = normalizeUrl (rawUrl none false "example.com" "/path") ∧
     Option.map hashString
        (normalizeUrl (rawUrl (some false) true "Example.com" "/path"))
        = Option.map hashString
            (normalizeUrl (rawUrl none false "example.com" "/path"))) :=
  ⟨⟨by decide, by decide, by decide,
    Or.inr ⟨'/', ['p', 'a', 't', 'h'], by decide, by decide⟩,
    by decide, by decide⟩,
   C3_normalizer_invariance.2.1 (some false) none true false
     "Example.com" "example.com" "/path" (by decide) (by decide) (by decide)
     (by decide) (Or.inr ⟨'/', ['p', 'a', 't', 'h'], by decide, by decide⟩)
     (by decide) (by decide) (by decide)⟩

/-- C3 counterexample: two raw URLs that differ only by one leading `www.`
label can normalize to different domains — a doubled `www.` is stripped only
once. -/
theorem C3_counterexample :
    normalizeUrl "www.www.example.com" = some "www.example.com" ∧
    normalizeUrl "www.example.com" = some "example.com" ∧
    normalizeUrl "www.www.example.com" ≠ normalizeUrl "www.example.com" := by
  refine ⟨by decide, by decide, by decide⟩

